import Mathlib

/-!
Shallow embedding of the `juju/rebootstrap-raft` repository (package `main`,
file `main.go`, final variant with auto-discovery and snap confinement,
plus the `loggoWriter` of the earlier variant) together with theorems
checking its natural-language specification.

Pure Go functions become Lean functions; filesystem and network effects of
`Run` are modelled by a `World` record of oracle functions, and `run`
returns both the Go result and the ordered trace of external operations it
attempted.
-/

/- ---------------------------------------------------------------------
   Go `path/filepath` (Unix): `Clean` and `Join`.

   `Clean` is embedded at the level of path components: split on '/',
   process components left to right with a stack ("" and "." are dropped,
   ".." pops a component, or is kept/dropped at the root depending on
   rootedness), then re-join.  This is the standard component-level
   statement of Go's lexical cleaning loop.
   --------------------------------------------------------------------- -/

/-- Split a character list on the path separator '/'.  Always returns a
non-empty list of (possibly empty) components. -/
def splitSlash : List Char → List (List Char)
  | [] => [[]]
  | c :: rest =>
    if c = '/' then [] :: splitSlash rest
    else
      match splitSlash rest with
      | [] => [[c]]
      | g :: gs => (c :: g) :: gs

/-- One step of the component processing of Go `filepath.Clean`.  The stack is
kept in reverse order (head = most recently emitted component). -/
def cleanStep (rooted : Bool) (stack : List (List Char)) (comp : List Char) :
    List (List Char) :=
  if comp = [] ∨ comp = ['.'] then stack
  else if comp = ['.', '.'] then
    match stack with
    | [] => if rooted then [] else [['.', '.']]
    | top :: below => if top = ['.', '.'] then ['.', '.'] :: top :: below else below
  else comp :: stack

/-- Process a list of components with `cleanStep`. -/
def cleanFold (rooted : Bool) (stack : List (List Char)) (comps : List (List Char)) :
    List (List Char) :=
  comps.foldl (cleanStep rooted) stack

/-- Join components with '/' separators. -/
def joinSlash : List (List Char) → List Char
  | [] => []
  | [c] => c
  | c :: rest => c ++ '/' :: joinSlash rest

/-- Render a cleaned component stack back into a path.  An empty result is
"/" for rooted paths and "." otherwise, exactly as in Go's `Clean`. -/
def renderPath (rooted : Bool) (stack : List (List Char)) : List Char :=
  if stack.reverse = [] then (if rooted then ['/'] else ['.'])
  else (if rooted then ['/'] else []) ++ joinSlash stack.reverse

/-- A path component as it can appear on a cleaned stack: non-empty, not
".", not "..", and free of separators.  (For rooted paths, ".." never
survives cleaning.) -/
def GoodComp (c : List Char) : Prop :=
  c ≠ [] ∧ c ≠ ['.'] ∧ c ≠ ['.', '.'] ∧ '/' ∉ c

/-- Go `filepath.Clean` on a character list: "" cleans to ".", otherwise
the path is rooted exactly when it starts with '/'. -/
def goCleanList : List Char → List Char
  | [] => ['.']
  | c :: rest =>
    renderPath (c == '/') (cleanFold (c == '/') [] (splitSlash (c :: rest)))

/-- Go `filepath.Clean`. -/
def goClean (s : String) : String := String.mk (goCleanList s.data)

/-- Go `filepath.Join(a, b)`: the elements up to the first non-empty one
are dropped, the rest are joined with '/' and cleaned; all-empty input
yields "". -/
def filepathJoin2 (a b : String) : String :=
  if a = "" then (if b = "" then "" else goClean b)
  else goClean (a ++ "/" ++ b)

/-- Go `filepath.Join(a, b, c)` (three arguments), same contract. -/
def filepathJoin3 (a b c : String) : String :=
  if a = "" then filepathJoin2 b c
  else goClean (a ++ "/" ++ b ++ "/" ++ c)

/- ---------------------------------------------------------------------
   Go `strconv.Atoi` (64-bit int).
   --------------------------------------------------------------------- -/

/-- Accumulate decimal digits; any non-digit character fails. -/
def parseDigitsAux : List Char → Nat → Option Nat
  | [], acc => some acc
  | c :: rest, acc =>
    if '0' ≤ c ∧ c ≤ '9' then
      parseDigitsAux rest (acc * 10 + (c.toNat - '0'.toNat))
    else none

/-- Go `strconv.Atoi` on a 64-bit platform: an optional single '+' or '-'
sign followed by at least one decimal digit, with the value required to
fit in a signed 64-bit integer (`ParseInt` reports `ErrRange` otherwise,
which `Atoi` surfaces as an error). -/
def atoi (s : String) : Option Int :=
  match s.data with
  | [] => none
  | c :: rest =>
    let signDigits : Bool × List Char :=
      if c = '-' then (true, rest)
      else if c = '+' then (false, rest)
      else (false, c :: rest)
    match signDigits.2 with
    | [] => none
    | _ =>
      match parseDigitsAux signDigits.2 0 with
      | none => none
      | some n =>
        if signDigits.1 then
          if n ≤ 2 ^ 63 then some (-(n : Int)) else none
        else
          if n ≤ 2 ^ 63 - 1 then some (n : Int) else none

/- ---------------------------------------------------------------------
   `getMachineID` (pure part, after `os.ReadDir` succeeded).
   --------------------------------------------------------------------- -/

/-- One entry of an `os.ReadDir` listing: its name and whether it is a
directory. -/
structure DirEntry where
  name : String
  isDir : Bool
deriving DecidableEq

/-- Function `startsWithChars pat l` is Go `strings.HasPrefix(l, pat)` on character
lists. -/
def startsWithChars : List Char → List Char → Bool
  | [], _ => true
  | _ :: _, [] => false
  | p :: ps, c :: cs => p == c && startsWithChars ps cs

/-- The collection loop of `rebootstrapCommand.getMachineID`: skip
non-directories, keep entries named `machine-<suffix>` whose suffix is
accepted by `strconv.Atoi`, collecting the suffixes in order. -/
def machineIDsLoop : List DirEntry → List String
  | [] => []
  | e :: rest =>
    if e.isDir = false then machineIDsLoop rest
    else if startsWithChars ("machine-".data) e.name.data then
      -- strings.TrimPrefix: drop the 8 characters of "machine-"
      let mid := String.mk (e.name.data.drop 8)
      if (atoi mid).isSome then mid :: machineIDsLoop rest
      else machineIDsLoop rest
    else machineIDsLoop rest

/-- Embeds `rebootstrapCommand.getMachineID` after a successful directory
listing: exactly one candidate is returned, any other count is an error
`"expected exactly one machine ID, got <count>"`. -/
def getMachineID (entries : List DirEntry) : Except String String :=
  let machineIDs := machineIDsLoop entries
  if machineIDs.length ≠ 1 then
    Except.error ("expected exactly one machine ID, got " ++ toString machineIDs.length)
  else Except.ok (machineIDs.getD 0 "")

/-- Modelled from the spec: the claim's candidate condition, "the
remaining suffix parses as a non-negative integer" — the suffix is
accepted by the integer parser and denotes a value that is not negative.
Used only to compare the specification's wording with the code. -/
def specNonNegParse (s : String) : Bool :=
  match atoi s with
  | some v => decide (0 ≤ v)
  | none => false

/- ---------------------------------------------------------------------
   `extractStatePassword` (pure part, after YAML decoding succeeded).
   --------------------------------------------------------------------- -/

/-- A decoded YAML value, as produced by decoding into
`map[string]interface{}`. -/
inductive YamlValue where
  | str (s : String)
  | intVal (n : Int)
  | boolVal (b : Bool)
  | listVal (items : List YamlValue)
  | mapVal (fields : List (String × YamlValue))
  | nullVal

/-- Lookup of a key in a decoded YAML mapping (Go map indexing; YAML
mappings have unique keys, so first match suffices). -/
def lookupField : List (String × YamlValue) → String → Option YamlValue
  | [], _ => none
  | (k, v) :: rest, key => if k = key then some v else lookupField rest key

/-- Embeds `rebootstrapCommand.extractStatePassword` after YAML decoding: the
`statepassword` field must be present, a string, and non-empty (the Go
type assertion `config["statepassword"].(string)` fails for a missing or
non-string field). -/
def extractStatePassword (config : List (String × YamlValue)) : Except String String :=
  match lookupField config "statepassword" with
  | some (YamlValue.str password) =>
    if password = "" then Except.error "statepassword not found"
    else Except.ok password
  | _ => Except.error "statepassword not found"

/- ---------------------------------------------------------------------
   Go `net.SplitHostPort` / `net.JoinHostPort`.
   --------------------------------------------------------------------- -/

/-- Index of the first occurrence of a character in a list. -/
def firstIdxOf : List Char → Char → Option Nat
  | [], _ => none
  | x :: rest, c =>
    if x = c then some 0
    else (firstIdxOf rest c).map (fun n => n + 1)

/-- Index of the last occurrence of a character in a list. -/
def lastIdxOf (l : List Char) (c : Char) : Option Nat :=
  match firstIdxOf l.reverse c with
  | none => none
  | some i => some (l.length - 1 - i)

/-- Go `net.SplitHostPort`: the port starts after the last ':'; a leading
'[' requires the matching ']' to sit directly before that colon and host
is the bracket contents, otherwise the host is everything before the last
colon and may contain no further ':', '[' or ']'.  All error returns are
collapsed to `none`. -/
def splitHostPort (hostport : String) : Option (String × String) :=
  let l := hostport.data
  match lastIdxOf l ':' with
  | none => none
  | some i =>
    match l with
    | '[' :: _ =>
      match firstIdxOf l ']' with
      | none => none
      | some e =>
        if e + 1 = l.length then none
        else if e + 1 = i then
          if (firstIdxOf (l.drop 1) '[').isSome then none
          else if (firstIdxOf (l.drop (e + 1)) ']').isSome then none
          else some (String.mk ((l.drop 1).take (e - 1)), String.mk (l.drop (i + 1)))
        else none
    | _ =>
      let host := l.take i
      if (firstIdxOf host ':').isSome then none
      else if (firstIdxOf l '[').isSome then none
      else if (firstIdxOf l ']').isSome then none
      else some (String.mk host, String.mk (l.drop (i + 1)))

/-- Go `net.JoinHostPort`: a host containing ':' is assumed to be an IPv6
literal and gets bracketed. -/
def joinHostPort (host port : String) : String :=
  if (firstIdxOf host.data ':').isSome then "[" ++ host ++ "]:" ++ port
  else host ++ ":" ++ port

/- ---------------------------------------------------------------------
   `makeRaftServers`.
   --------------------------------------------------------------------- -/

/-- Embeds `replicaset.Member`: ordinal id, `host:port` address, optional vote
weight (`Votes *int`), and the tag map. -/
structure Member where
  Id : Int
  Address : String
  Votes : Option Int
  Tags : List (String × String)
deriving DecidableEq

/-- Key of the replica-set member tag holding the machine id. -/
def jujuMachineKey : String := "juju-machine-id"

/-- Go map lookup in a member's tag map. -/
def lookupTag : List (String × String) → String → Option String
  | [], _ => none
  | (k, v) :: rest, key => if k = key then some v else lookupTag rest key

inductive Suffrage where
  | Voter
  | Nonvoter
deriving DecidableEq

/-- Embeds `raft.Server`. -/
structure RaftServer where
  ID : String
  Address : String
  Suffrage : Suffrage
deriving DecidableEq

/-- Embeds `raft.Configuration`. -/
structure RaftConfiguration where
  Servers : List RaftServer
deriving DecidableEq

/-- The two error exits of `makeRaftServers`, each carrying the offending
member's ordinal id (`errors.NotFoundf` for a missing tag,
`errors.Annotatef` around the `net.SplitHostPort` failure). -/
inductive SrvErr where
  | noMachineTag (memberId : Int)
  | addrErr (memberId : Int)
deriving DecidableEq

/-- The ordinal id carried by a `makeRaftServers` error. -/
def SrvErr.memberId : SrvErr → Int
  | SrvErr.noMachineTag i => i
  | SrvErr.addrErr i => i

/-- Rendering of a `makeRaftServers` error message (the cause text of the
underlying address error is abstracted away). -/
def srvErrString : SrvErr → String
  | SrvErr.noMachineTag i => "juju machine id for replset member " ++ toString i ++ " not found"
  | SrvErr.addrErr i => "getting base address for replset member " ++ toString i

/-- The condition `member.Votes != nil && *member.Votes < 1`. -/
def voteLessThanOne : Option Int → Bool
  | some v => decide (v < 1)
  | none => false

/-- The loop body of `makeRaftServers`: per member, in order, look up the
machine-id tag, split the address, re-join the host with the API port,
and decide suffrage; the first failure aborts the whole loop. -/
def makeServersList (apiPort : Int) : List Member → Except SrvErr (List RaftServer)
  | [] => Except.ok []
  | member :: rest =>
    match lookupTag member.Tags jujuMachineKey with
    | none => Except.error (SrvErr.noMachineTag member.Id)
    | some id =>
      match splitHostPort member.Address with
      | none => Except.error (SrvErr.addrErr member.Id)
      | some (baseAddress, _) =>
        let apiAddress := joinHostPort baseAddress (toString apiPort)
        let suffrage := if voteLessThanOne member.Votes then Suffrage.Nonvoter else Suffrage.Voter
        match makeServersList apiPort rest with
        | Except.error e => Except.error e
        | Except.ok servers =>
          Except.ok ({ ID := id, Address := apiAddress, Suffrage := suffrage } :: servers)

/-- Embeds `makeRaftServers`, with Go's two return values: on any failure the
zero `raft.Configuration` (empty server list) is returned together with
the error. -/
def makeRaftServers (members : List Member) (apiPort : Int) :
    RaftConfiguration × Option SrvErr :=
  match makeServersList apiPort members with
  | Except.error e => (⟨[]⟩, some e)
  | Except.ok servers => (⟨servers⟩, none)

/- ---------------------------------------------------------------------
   `loggoWriter.Write` (earlier tool variant).
   --------------------------------------------------------------------- -/

/-- Embeds `loggoWriter.Write`: the record is forwarded as `p[:len(p)-1]` (the
last byte is sliced off unconditionally, per the "omit trailing newline"
comment) and `(len(p), nil)` is returned.  On an empty record the slice
expression `p[:len(p)-1]` panics, modelled as `none`.  The `some` result
carries the forwarded message and the returned byte count. -/
def loggoWrite (p : List Char) : Option (String × Nat) :=
  match p with
  | [] => none
  | _ => some (String.mk p.dropLast, p.length)

/- ---------------------------------------------------------------------
   `rebootstrapCommand` and `Run`, with external effects supplied by a
   `World` of oracles and recorded in an ordered event trace.
   --------------------------------------------------------------------- -/

/-- The `rebootstrapCommand` flag/state fields used by `Run`. -/
structure RebootstrapConfig where
  apiPort : Int
  asSnap : Bool
  dryRun : Bool
  hostname : String
  jujuDir : String
  machineID : String
  mongoPort : String
  password : String
  ssl : Bool
  verbose : Bool

/-- Embeds `rebootstrapCommand.getJujuPath`: join `subPath` onto `jujuDir`,
first remapping `jujuDir` under the snap host filesystem when `snapify`
is requested and the process runs inside a snap. -/
def getJujuPath (c : RebootstrapConfig) (subPath : String) (snapify : Bool) : String :=
  let jujuBaseDir :=
    if snapify && c.asSnap then filepathJoin2 "/var/lib/snapd/hostfs" c.jujuDir
    else c.jujuDir
  filepathJoin2 jujuBaseDir subPath

/-- Go `%q` rendering of a path (escaping of exotic characters is not
modelled; the paths at hand contain none). -/
def goQuote (s : String) : String := "\"" ++ s ++ "\""

/-- One attempted external operation of `Run`, in order. -/
inductive Event where
  | statRaftDir (path : String)
  | readAgentsDir (path : String)
  | openAgentConf (path : String)
  | dialMongo (machineID password : String)
  | newLogStore (path : String)
  | newSnapshotStore (path : String)
  | bootstrapCluster
deriving DecidableEq

/-- Whether an event creates or modifies on-disk consensus state. -/
def Event.isStoreOp : Event → Bool
  | Event.newLogStore _ => true
  | Event.newSnapshotStore _ => true
  | Event.bootstrapCluster => true
  | _ => false

/-- Oracles for the external effects `Run` performs.  `statError` is the
error of `os.Stat` (`none` = the path exists); `readDir` is `os.ReadDir`;
`openConf` is `os.Open` plus YAML decoding of the agent config;
`currentMembers` is the MongoDB dial plus `replicaset.CurrentMembers`,
as a function of the credentials used; the last three are the fallible
store/bootstrap operations. -/
structure World where
  statError : String → Option String
  readDir : String → Except String (List DirEntry)
  openConf : String → Except String (List (String × YamlValue))
  currentMembers : String → String → Except String (List Member)
  logStoreInit : String → Except String Unit
  snapStoreInit : String → Except String Unit
  bootstrapCluster : RaftConfiguration → Except String Unit

/-- The machine-id resolution step of `Run`: an explicitly configured id
is used as-is; otherwise `getMachineID("agents")` lists the agents
directory (snap-remapped for the actual read, plain for the error text)
and `Run` annotates any failure with "getting machine IDs". -/
def resolveMachineID (c : RebootstrapConfig) (w : World) :
    Except String String × List Event :=
  if c.machineID = "" then
    let path := getJujuPath c "agents" true
    (match w.readDir path with
     | Except.error e =>
       Except.error ("getting machine IDs: " ++
         ("reading directory " ++ goQuote (getJujuPath c "agents" false) ++ ": " ++ e))
     | Except.ok entries =>
       match getMachineID entries with
       | Except.error e => Except.error ("getting machine IDs: " ++ e)
       | Except.ok id => Except.ok id,
     [Event.readAgentsDir path])
  else (Except.ok c.machineID, [])

/-- The password resolution step of `Run`: an explicitly configured
password is used as-is; otherwise `getStatePassword(machineID, "agents")`
opens `agents/machine-<id>/agent.conf` (snap-remapped for the actual
open) and extracts `statepassword`, and `Run` annotates any failure
with "getting state password". -/
def resolvePassword (c : RebootstrapConfig) (w : World) (machineID : String) :
    Except String String × List Event :=
  if c.password = "" then
    let agentConfigPath := filepathJoin2 "agents" ("machine-" ++ machineID ++ "/agent.conf")
    let path := getJujuPath c agentConfigPath true
    (match w.openConf path with
     | Except.error e =>
       Except.error ("getting state password: " ++
         ("opening agent config file " ++ goQuote agentConfigPath ++ ": " ++ e))
     | Except.ok doc =>
       match extractStatePassword doc with
       | Except.error e =>
         Except.error ("getting state password: " ++
           ("extracting state password from " ++ goQuote agentConfigPath ++ ": " ++ e))
       | Except.ok p => Except.ok p,
     [Event.openAgentConf path])
  else (Except.ok c.password, [])

/-- Steps 1–5 of `Run`: the preflight `os.Stat` on the raft directory
(aborting when it exists and this is not a dry run), identity and
credential resolution, the replica-set membership fetch, and
`makeRaftServers`.  Returns the resolved identity, password and server
configuration, and the trace of attempted operations. -/
def runCore (c : RebootstrapConfig) (w : World) :
    Except String (String × String × RaftConfiguration) × List Event :=
  let raftPath := getJujuPath c "raft" true
  let statEv := Event.statRaftDir raftPath
  -- Go: `if err == nil && !c.dryRun { return errors.Errorf(...) }`
  if w.statError raftPath = none ∧ c.dryRun = false then
    (Except.error ("raft directory " ++ goQuote (getJujuPath c "raft" false) ++
       " already exists - remove it first to show your commitment"), [statEv])
  else
    match resolveMachineID c w with
    | (Except.error e, evs1) => (Except.error e, statEv :: evs1)
    | (Except.ok machineID, evs1) =>
      match resolvePassword c w machineID with
      | (Except.error e, evs2) => (Except.error e, statEv :: (evs1 ++ evs2))
      | (Except.ok password, evs2) =>
        let dialEv := Event.dialMongo machineID password
        match w.currentMembers machineID password with
        | Except.error e =>
          (Except.error ("getting replica set members: " ++ e),
           statEv :: (evs1 ++ evs2 ++ [dialEv]))
        | Except.ok members =>
          match makeRaftServers members c.apiPort with
          | (_, some e) =>
            (Except.error ("constructing raft server configuration: " ++ srvErrString e),
             statEv :: (evs1 ++ evs2 ++ [dialEv]))
          | (cfg, none) =>
            (Except.ok (machineID, password, cfg),
             statEv :: (evs1 ++ evs2 ++ [dialEv]))

/-- Embeds `raft.ValidateConfig` applied to the output of `makeRaftConfig`: all
fields of `raft.DefaultConfig()` satisfy the library's validation, so
the only input-dependent check is that the local server id (the machine
id) is non-empty. -/
def makeRaftConfigOk (machineID : String) : Except String Unit :=
  if machineID = "" then
    Except.error "validating raft config: LocalID cannot be empty"
  else Except.ok ()

/-- Embeds `rebootstrapCommand.bootstrapRaft`: create the log store and the
snapshot store under the (snap-remapped) raft directory, validate the
raft config, and bootstrap the cluster; each failure is annotated with
its step name. -/
def bootstrapRaftRun (c : RebootstrapConfig) (w : World) (machineID : String)
    (servers : RaftConfiguration) : Except String Unit × List Event :=
  let raftPath := getJujuPath c "raft" true
  match w.logStoreInit raftPath with
  | Except.error e =>
    (Except.error ("making log store: " ++ e), [Event.newLogStore raftPath])
  | Except.ok _ =>
    match w.snapStoreInit raftPath with
    | Except.error e =>
      (Except.error ("making snapshot store: " ++ e),
       [Event.newLogStore raftPath, Event.newSnapshotStore raftPath])
    | Except.ok _ =>
      match makeRaftConfigOk machineID with
      | Except.error e =>
        (Except.error ("making raft config: " ++ e),
         [Event.newLogStore raftPath, Event.newSnapshotStore raftPath])
      | Except.ok _ =>
        match w.bootstrapCluster servers with
        | Except.error e =>
          (Except.error ("bootstrapping raft cluster: " ++ e),
           [Event.newLogStore raftPath, Event.newSnapshotStore raftPath,
            Event.bootstrapCluster])
        | Except.ok _ =>
          (Except.ok (),
           [Event.newLogStore raftPath, Event.newSnapshotStore raftPath,
            Event.bootstrapCluster])

/-- Embeds `rebootstrapCommand.Run`: steps 1–5 (`runCore`), then the dry-run
short circuit, then `bootstrapRaft`. -/
def run (c : RebootstrapConfig) (w : World) : Except String Unit × List Event :=
  match runCore c w with
  | (Except.error e, evs) => (Except.error e, evs)
  | (Except.ok (machineID, _, servers), evs) =>
    if c.dryRun then (Except.ok (), evs)
    else
      match bootstrapRaftRun c w machineID servers with
      | (r, evs2) => (r, evs ++ evs2)

/- =====================================================================
   Theorems.
   ===================================================================== -/

/- Path cleaning lemmas (towards the `getJujuPath` claims). -/

theorem splitSlash_ne_nil (l : List Char) : splitSlash l ≠ [] := by
  cases l with
  | nil => simp [splitSlash]
  | cons c rest =>
    simp only [splitSlash]
    split
    · simp
    · split <;> simp

theorem splitSlash_append (x y : List Char) :
    splitSlash (x ++ '/' :: y) = splitSlash x ++ splitSlash y := by
  induction x with
  | nil => simp [splitSlash]
  | cons c rest ih =>
    show splitSlash (c :: (rest ++ '/' :: y)) = splitSlash (c :: rest) ++ splitSlash y
    by_cases hc : c = '/'
    · simp [splitSlash, hc, ih]
    · obtain ⟨g, gs, hg⟩ : ∃ g gs, splitSlash rest = g :: gs := by
        rcases h : splitSlash rest with _ | ⟨g, gs⟩
        · exact absurd h (splitSlash_ne_nil rest)
        · exact ⟨g, gs, rfl⟩
      simp [splitSlash, hc, ih, hg]

theorem noSlash_of_mem_splitSlash (l : List Char) (comp : List Char)
    (h : comp ∈ splitSlash l) : '/' ∉ comp := by
  induction l generalizing comp with
  | nil =>
    simp [splitSlash] at h
    simp [h]
  | cons c rest ih =>
    simp only [splitSlash] at h
    by_cases hc : c = '/'
    · simp [hc] at h
      rcases h with h | h
      · simp [h]
      · exact ih comp h
    · simp [hc] at h
      rcases hg : splitSlash rest with _ | ⟨g, gs⟩
      · exact absurd hg (splitSlash_ne_nil rest)
      · rw [hg] at h
        simp at h
        rcases h with h | h
        · subst h
          intro hmem
          rcases List.mem_cons.mp hmem with h1 | h1
          · exact hc h1.symm
          · exact ih g (by rw [hg]; exact List.mem_cons_self g gs) h1
        · exact ih comp (by rw [hg]; exact List.mem_cons_of_mem g h)

theorem splitSlash_of_noSlash (l : List Char) (h : '/' ∉ l) :
    splitSlash l = [l] := by
  induction l with
  | nil => simp [splitSlash]
  | cons c rest ih =>
    simp only [splitSlash]
    have hc : ¬ c = '/' := fun hc => h (by simp [hc])
    rw [if_neg hc, ih (fun hm => h (List.mem_cons_of_mem c hm))]

theorem cleanStep_good (st : List (List Char)) (comp : List Char)
    (hst : ∀ x ∈ st, GoodComp x) (hcomp : '/' ∉ comp) :
    ∀ x ∈ cleanStep true st comp, GoodComp x := by
  intro x hx
  simp only [cleanStep] at hx
  split at hx
  · exact hst x hx
  · split at hx
    · split at hx
      · simp at hx
      · rename_i top below
        have htop : GoodComp top := hst top (List.mem_cons_self top below)
        rw [if_neg htop.2.2.1] at hx
        exact hst x (List.mem_cons_of_mem top hx)
    · rcases List.mem_cons.mp hx with h | h
      · subst h
        rename_i h1 h2
        push_neg at h1
        exact ⟨h1.1, h1.2, h2, hcomp⟩
      · exact hst x h

theorem cleanFold_good (comps : List (List Char)) (st : List (List Char))
    (hst : ∀ x ∈ st, GoodComp x) (hcomps : ∀ c ∈ comps, '/' ∉ c) :
    ∀ x ∈ cleanFold true st comps, GoodComp x := by
  induction comps generalizing st with
  | nil => exact hst
  | cons c rest ih =>
    have h1 : ∀ x ∈ cleanStep true st c, GoodComp x :=
      cleanStep_good st c hst (hcomps c (List.mem_cons_self c rest))
    have h2 : ∀ d ∈ rest, '/' ∉ d := fun d hd => hcomps d (List.mem_cons_of_mem c hd)
    exact ih (cleanStep true st c) h1 h2

theorem cleanFold_replay (comps : List (List Char)) (r : Bool) (st : List (List Char))
    (h : ∀ c ∈ comps, GoodComp c) :
    cleanFold r st comps = comps.reverse ++ st := by
  induction comps generalizing st with
  | nil => simp [cleanFold]
  | cons c rest ih =>
    have hc : GoodComp c := h c (List.mem_cons_self c rest)
    have hstep : cleanStep r st c = c :: st := by
      simp only [cleanStep]
      rw [if_neg (by simp [hc.1, hc.2.1]), if_neg hc.2.2.1]
    show cleanFold r (cleanStep r st c) rest = (c :: rest).reverse ++ st
    rw [hstep, ih (c :: st) (fun d hd => h d (List.mem_cons_of_mem c hd))]
    simp

theorem splitSlash_joinSlash (comps : List (List Char)) (hne : comps ≠ [])
    (h : ∀ c ∈ comps, '/' ∉ c) : splitSlash (joinSlash comps) = comps := by
  induction comps with
  | nil => exact absurd rfl hne
  | cons c rest ih =>
    rcases rest with _ | ⟨c2, cs⟩
    · show splitSlash (joinSlash [c]) = [c]
      rw [joinSlash]
      exact splitSlash_of_noSlash c (h c (List.mem_cons_self c []))
    · show splitSlash (joinSlash (c :: c2 :: cs)) = c :: c2 :: cs
      rw [joinSlash, splitSlash_append,
        splitSlash_of_noSlash c (h c (List.mem_cons_self c (c2 :: cs))),
        ih (List.cons_ne_nil c2 cs) (fun d hd => h d (List.mem_cons_of_mem c hd))]
      rfl
      exact fun hh => absurd hh (List.cons_ne_nil c2 cs)

theorem cleanFold_cons_nil (r : Bool) (st : List (List Char)) (comps : List (List Char)) :
    cleanFold r st ([] :: comps) = cleanFold r st comps := by
  show cleanFold r (cleanStep r st []) comps = cleanFold r st comps
  rw [show cleanStep r st [] = st from by simp [cleanStep]]

theorem splitSlash_cons_slash (x : List Char) :
    splitSlash ('/' :: x) = [] :: splitSlash x := by
  simp [splitSlash]

theorem cleanFold_renderPath (stack : List (List Char))
    (hgood : ∀ x ∈ stack, GoodComp x) :
    cleanFold true [] (splitSlash (renderPath true stack)) = stack := by
  unfold renderPath
  by_cases hnil : stack.reverse = []
  · have h0 : stack = [] := by simpa using hnil
    subst h0
    simp only [if_pos hnil]
    decide
  · rw [if_neg hnil]
    have hfree : ∀ c ∈ stack.reverse, '/' ∉ c := by
      intro c hc
      exact (hgood c (List.mem_reverse.mp hc)).2.2.2
    have hgoodrev : ∀ c ∈ stack.reverse, GoodComp c := by
      intro c hc
      exact hgood c (List.mem_reverse.mp hc)
    show cleanFold true [] (splitSlash ('/' :: joinSlash stack.reverse)) = stack
    rw [splitSlash_cons_slash, cleanFold_cons_nil,
      splitSlash_joinSlash stack.reverse hnil hfree,
      cleanFold_replay stack.reverse true [] hgoodrev]
    simp

theorem cleanFold_goCleanList (t : List Char) :
    cleanFold true [] (splitSlash (goCleanList ('/' :: t))) =
      cleanFold true [] (splitSlash ('/' :: t)) := by
  have hgood : ∀ x ∈ cleanFold true [] (splitSlash ('/' :: t)), GoodComp x :=
    cleanFold_good (splitSlash ('/' :: t)) [] (by simp)
      (fun c hc => noSlash_of_mem_splitSlash ('/' :: t) c hc)
  show cleanFold true []
      (splitSlash (renderPath ('/' == '/') (cleanFold ('/' == '/') [] (splitSlash ('/' :: t))))) = _
  rw [show ('/' == '/') = true from rfl]
  exact cleanFold_renderPath (cleanFold true [] (splitSlash ('/' :: t))) hgood

theorem goCleanList_rooted (t : List Char) :
    ∃ u, goCleanList ('/' :: t) = '/' :: u := by
  show ∃ u, renderPath ('/' == '/') (cleanFold ('/' == '/') [] (splitSlash ('/' :: t))) = '/' :: u
  rw [show ('/' == '/') = true from rfl]
  unfold renderPath
  split
  · exact ⟨[], rfl⟩
  · exact ⟨joinSlash (cleanFold true [] (splitSlash ('/' :: t))).reverse, rfl⟩

theorem goCleanList_append_rooted (t v : List Char) :
    goCleanList (goCleanList ('/' :: t) ++ '/' :: v) =
      goCleanList ('/' :: (t ++ '/' :: v)) := by
  obtain ⟨u, hu⟩ := goCleanList_rooted t
  rw [hu]
  show goCleanList ('/' :: (u ++ '/' :: v)) = goCleanList ('/' :: (t ++ '/' :: v))
  simp only [goCleanList, show ('/' == '/') = true from rfl]
  rw [splitSlash_cons_slash, splitSlash_cons_slash, cleanFold_cons_nil, cleanFold_cons_nil,
    splitSlash_append, splitSlash_append]
  unfold cleanFold
  rw [List.foldl_append, List.foldl_append]
  have hcore : List.foldl (cleanStep true) [] (splitSlash u) =
      List.foldl (cleanStep true) [] (splitSlash t) := by
    have h1 := cleanFold_goCleanList t
    rw [hu, splitSlash_cons_slash, cleanFold_cons_nil, splitSlash_cons_slash,
      cleanFold_cons_nil] at h1
    exact h1
  rw [hcore]

theorem goClean_join_rooted (u v : String) (t : List Char) (hu : u.data = '/' :: t) :
    goClean (goClean u ++ "/" ++ v) = goClean (u ++ "/" ++ v) := by
  apply String.ext
  show goCleanList ((goClean u ++ "/") ++ v).data = goCleanList ((u ++ "/") ++ v).data
  rw [String.data_append, String.data_append, String.data_append, String.data_append]
  show goCleanList ((goCleanList u.data ++ ['/']) ++ v.data) =
    goCleanList ((u.data ++ ['/']) ++ v.data)
  rw [hu, List.append_assoc, List.append_assoc]
  show goCleanList (goCleanList ('/' :: t) ++ '/' :: v.data) =
    goCleanList ('/' :: t ++ '/' :: v.data)
  rw [goCleanList_append_rooted]
  rfl

theorem goClean_rooted_ne_empty (u : String) (t : List Char) (hu : u.data = '/' :: t) :
    goClean u ≠ "" := by
  obtain ⟨w, hw⟩ := goCleanList_rooted t
  intro h
  have hdata : (goClean u).data = [] := by rw [h]
  rw [show (goClean u).data = goCleanList u.data from rfl, hu, hw] at hdata
  simp at hdata

/-- Claim C6: `getJujuPath(subPath, snapify)` returns the normalized join
of the fixed snap host-filesystem mount point, `jujuDir` and `subPath`
when `snapify` is requested and the process runs as a snap, and the
normalized join of `jujuDir` and `subPath` (no prefix applied) when
`snapify` is false or the process does not run as a snap. -/
theorem getJujuPath_correct (c : RebootstrapConfig) (subPath : String) :
    (c.asSnap = true →
      getJujuPath c subPath true =
        filepathJoin3 "/var/lib/snapd/hostfs" c.jujuDir subPath) ∧
    (∀ snapify : Bool, snapify = false ∨ c.asSnap = false →
      getJujuPath c subPath snapify = filepathJoin2 c.jujuDir subPath) := by
  constructor
  · intro hsnap
    have hP : ("/var/lib/snapd/hostfs" : String) ≠ "" := by decide
    have hu : (("/var/lib/snapd/hostfs" ++ "/") ++ c.jujuDir).data =
        '/' :: ("var/lib/snapd/hostfs".data ++ '/' :: c.jujuDir.data) := by
      have h1 : ("/var/lib/snapd/hostfs" : String).data =
          '/' :: "var/lib/snapd/hostfs".data := by decide
      have h2 : ("/" : String).data = ['/'] := by decide
      rw [String.data_append, String.data_append, h1, h2]
      simp
    have hbase : filepathJoin2 "/var/lib/snapd/hostfs" c.jujuDir =
        goClean ("/var/lib/snapd/hostfs" ++ "/" ++ c.jujuDir) := by
      simp only [filepathJoin2]
      rw [if_neg hP]
    have hne : goClean ("/var/lib/snapd/hostfs" ++ "/" ++ c.jujuDir) ≠ "" :=
      goClean_rooted_ne_empty _ _ hu
    calc getJujuPath c subPath true
        = filepathJoin2 (filepathJoin2 "/var/lib/snapd/hostfs" c.jujuDir) subPath := by
          simp [getJujuPath, hsnap]
      _ = goClean (goClean ("/var/lib/snapd/hostfs" ++ "/" ++ c.jujuDir) ++ "/" ++ subPath) := by
          rw [hbase]
          simp only [filepathJoin2]
          rw [if_neg hne]
      _ = goClean (("/var/lib/snapd/hostfs" ++ "/" ++ c.jujuDir) ++ "/" ++ subPath) :=
          goClean_join_rooted _ subPath _ hu
      _ = filepathJoin3 "/var/lib/snapd/hostfs" c.jujuDir subPath := by
          simp only [filepathJoin3]
          rw [if_neg hP]
  · intro snapify hsf
    rcases hsf with h | h <;> simp [getJujuPath, h]

theorem getJujuPath_correct_witness :
    getJujuPath ⟨17070, true, false, "localhost", "somepath", "", "37017", "", true, false⟩
        "raft" true =
      filepathJoin3 "/var/lib/snapd/hostfs" "somepath" "raft" :=
  (getJujuPath_correct ⟨17070, true, false, "localhost", "somepath", "", "37017", "", true, false⟩
    "raft").1 rfl

/- `loggoWriter.Write` (C9). -/

/-- Claim C9 counterexample: writing the two-byte record "ab", which does
not end in a newline, forwards only "a" — the record's content is not
preserved (only a trailing byte-drop happened), refuting "preserves the
record's content except for suppressing a duplicate trailing newline". -/
theorem loggoWrite_counterexample :
    loggoWrite ['a', 'b'] = some ("a", 2) ∧
    ['a', 'b'].getLast? ≠ some '\n' ∧ ("a" : String) ≠ "ab" := by
  decide

/-- Claim C9 (amended): for every non-empty record, the forwarded message
is the record with its final byte removed (which suppresses the trailing
newline exactly when the record ends in one) and `Write` reports the full
input length with no error; an empty record makes the slice expression
panic instead. -/
theorem loggoWrite_correct (p : List Char) (h : p ≠ []) :
    loggoWrite p = some (String.mk p.dropLast, p.length) ∧
    (∀ q, p = q ++ ['\n'] → String.mk p.dropLast = String.mk q) := by
  constructor
  · cases p with
    | nil => exact absurd rfl h
    | cons c rest => rfl
  · intro q hq
    subst hq
    rw [List.dropLast_concat]

theorem loggoWrite_correct_witness :
    loggoWrite ['h', 'i', '\n'] = some (String.mk ['h', 'i'], 3) :=
  (loggoWrite_correct ['h', 'i', '\n'] (by decide)).1

/- `extractStatePassword` (C5). -/

/-- Claim C5: on any decoded agent-configuration document,
`extractStatePassword` succeeds with value `p` exactly when the
`statepassword` field is present with the non-empty string value `p`
(whatever other fields the document contains), and in every other case
fails with exactly the error "statepassword not found". -/
theorem extractStatePassword_correct (config : List (String × YamlValue)) :
    (∀ p, extractStatePassword config = Except.ok p ↔
      (lookupField config "statepassword" = some (YamlValue.str p) ∧ p ≠ "")) ∧
    ((∀ p, ¬(lookupField config "statepassword" = some (YamlValue.str p) ∧ p ≠ "")) →
      extractStatePassword config = Except.error "statepassword not found") := by
  constructor
  · intro p
    unfold extractStatePassword
    rcases hl : lookupField config "statepassword" with _ | v
    · simp
    · cases v with
      | str s =>
        by_cases hs : s = ""
        · subst hs
          simp
          exact fun h => h.symm
        · show (if s = "" then Except.error "statepassword not found" else Except.ok s) =
              Except.ok p ↔ some (YamlValue.str s) = some (YamlValue.str p) ∧ p ≠ ""
          rw [if_neg hs]
          constructor
          · intro h
            injection h with h
            subst h
            exact ⟨rfl, hs⟩
          · rintro ⟨h1, h2⟩
            injection h1 with h1
            injection h1 with h1
            rw [h1]
      | intVal n => simp
      | boolVal b => simp
      | listVal items => simp
      | mapVal fields => simp
      | nullVal => simp
  · intro hno
    unfold extractStatePassword
    rcases hl : lookupField config "statepassword" with _ | v
    · rfl
    · cases v with
      | str s =>
        have hs : s = "" := by
          by_contra hns
          exact hno s ⟨hl, hns⟩
        subst hs
        rfl
      | intVal n => rfl
      | boolVal b => rfl
      | listVal items => rfl
      | mapVal fields => rfl
      | nullVal => rfl

theorem extractStatePassword_correct_witness :
    extractStatePassword
        [("tag", YamlValue.str "machine-0"),
         ("datadir", YamlValue.str "/var/lib/juju"),
         ("statepassword", YamlValue.str "qKoU8Y/BRQd0shDFA4OdHxlf"),
         ("apipassword", YamlValue.str "qKoU8Y/BRQd0shDFA4OdHxlf"),
         ("apiport", YamlValue.intVal 17070)] =
      Except.ok "qKoU8Y/BRQd0shDFA4OdHxlf" :=
  ((extractStatePassword_correct _).1 "qKoU8Y/BRQd0shDFA4OdHxlf").mpr ⟨rfl, by decide⟩

/- `getMachineID` (C4). -/

theorem startsWithChars_iff (p l : List Char) :
    startsWithChars p l = true ↔ ∃ t, l = p ++ t := by
  induction p generalizing l with
  | nil =>
    simp [startsWithChars]
  | cons a ps ih =>
    cases l with
    | nil => simp [startsWithChars]
    | cons b bs =>
      simp only [startsWithChars, Bool.and_eq_true, beq_iff_eq, ih, List.cons_append,
        List.cons.injEq]
      constructor
      · rintro ⟨h1, t, h2⟩
        exact ⟨t, h1.symm, h2⟩
      · rintro ⟨t, h1, h2⟩
        exact ⟨h1.symm, t, h2⟩

theorem machinePre_mid (name s : String) (h : name = "machine-" ++ s) :
    String.mk (name.data.drop 8) = s := by
  apply String.ext
  show name.data.drop 8 = s.data
  rw [h, String.data_append]
  have h8 : ("machine-" : String).data.length = 8 := by decide
  rw [← h8, List.drop_left]

theorem machinePre_starts (name s : String) (h : name = "machine-" ++ s) :
    startsWithChars ("machine-".data) name.data = true :=
  (startsWithChars_iff _ _).mpr ⟨s.data, by rw [h, String.data_append]⟩

theorem machinePre_of_starts (name : String)
    (hp : startsWithChars ("machine-".data) name.data = true) :
    name = "machine-" ++ String.mk (name.data.drop 8) := by
  obtain ⟨t, ht⟩ := (startsWithChars_iff _ _).mp hp
  apply String.ext
  rw [String.data_append, ht]
  show "machine-".data ++ t = "machine-".data ++ (("machine-".data ++ t).drop 8)
  have h8 : ("machine-" : String).data.length = 8 := by decide
  rw [← h8, List.drop_left]

theorem mem_machineIDsLoop (entries : List DirEntry) (s : String) :
    s ∈ machineIDsLoop entries ↔
      ∃ e ∈ entries, e.isDir = true ∧ e.name = "machine-" ++ s ∧ (atoi s).isSome := by
  induction entries with
  | nil => simp [machineIDsLoop]
  | cons e rest ih =>
    simp only [machineIDsLoop]
    by_cases hd : e.isDir = false
    · rw [if_pos hd, ih]
      constructor
      · rintro ⟨e', he', h⟩
        exact ⟨e', List.mem_cons_of_mem e he', h⟩
      · rintro ⟨e', he', h1, h2, h3⟩
        rcases List.mem_cons.mp he' with rfl | he'
        · rw [hd] at h1
          cases h1
        · exact ⟨e', he', h1, h2, h3⟩
    · have hd' : e.isDir = true := by simpa using hd
      rw [if_neg hd]
      by_cases hp : startsWithChars ("machine-".data) e.name.data = true
      · rw [if_pos hp]
        by_cases ha : (atoi (String.mk (e.name.data.drop 8))).isSome = true
        · rw [if_pos ha]
          constructor
          · intro hmem
            rcases List.mem_cons.mp hmem with rfl | hmem
            · refine ⟨e, List.mem_cons_self e rest, hd', machinePre_of_starts e.name hp, ha⟩
            · obtain ⟨e', he', h⟩ := ih.mp hmem
              exact ⟨e', List.mem_cons_of_mem e he', h⟩
          · rintro ⟨e', he', h1, h2, h3⟩
            rcases List.mem_cons.mp he' with rfl | he'
            · exact List.mem_cons.mpr (Or.inl (machinePre_mid e'.name s h2).symm)
            · exact List.mem_cons.mpr (Or.inr (ih.mpr ⟨e', he', h1, h2, h3⟩))
        · rw [if_neg ha, ih]
          constructor
          · rintro ⟨e', he', h⟩
            exact ⟨e', List.mem_cons_of_mem e he', h⟩
          · rintro ⟨e', he', h1, h2, h3⟩
            rcases List.mem_cons.mp he' with rfl | he'
            · rw [machinePre_mid e'.name s h2] at ha
              exact absurd h3 ha
            · exact ⟨e', he', h1, h2, h3⟩
      · rw [if_neg hp, ih]
        constructor
        · rintro ⟨e', he', h⟩
          exact ⟨e', List.mem_cons_of_mem e he', h⟩
        · rintro ⟨e', he', h1, h2, h3⟩
          rcases List.mem_cons.mp he' with rfl | he'
          · exact absurd (machinePre_starts e'.name s h2) hp
          · exact ⟨e', he', h1, h2, h3⟩

/-- Claim C4 counterexample: a directory entry named "machine--1" is a
candidate of the code (Go `strconv.Atoi` accepts the signed suffix "-1"),
although "-1" does not parse as a non-negative integer; `getMachineID`
therefore returns "-1" where the claim predicts the candidate set to be
empty and the call to fail with "expected exactly one machine ID, got 0". -/
theorem getMachineID_counterexample :
    machineIDsLoop [⟨"machine--1", true⟩] = ["-1"] ∧
    specNonNegParse "-1" = false ∧
    getMachineID [⟨"machine--1", true⟩] = Except.ok "-1" :=
  ⟨rfl, rfl, rfl⟩

/-- Claim C4 (amended): the candidate set contains exactly the suffixes of
directory entries (non-directory entries are ignored) whose name begins
with "machine-" and whose remaining suffix is accepted by Go's
`strconv.Atoi` — an optionally signed decimal 64-bit integer, so negative
suffixes also qualify; with exactly one candidate that suffix is returned,
and otherwise `getMachineID` fails with exactly "expected exactly one
machine ID, got <count>". -/
theorem getMachineID_correct (entries : List DirEntry) :
    (∀ s, s ∈ machineIDsLoop entries ↔
      ∃ e ∈ entries, e.isDir = true ∧ e.name = "machine-" ++ s ∧ (atoi s).isSome) ∧
    ((machineIDsLoop entries).length = 1 →
      ∃ s, machineIDsLoop entries = [s] ∧ getMachineID entries = Except.ok s) ∧
    ((machineIDsLoop entries).length ≠ 1 →
      getMachineID entries = Except.error
        ("expected exactly one machine ID, got " ++
          toString (machineIDsLoop entries).length)) := by
  refine ⟨mem_machineIDsLoop entries, ?_, ?_⟩
  · intro h1
    obtain ⟨s, hs⟩ := List.length_eq_one.mp h1
    refine ⟨s, hs, ?_⟩
    simp only [getMachineID]
    rw [hs]
    simp
  · intro h1
    simp only [getMachineID]
    rw [if_pos h1]

theorem getMachineID_correct_witness :
    getMachineID [⟨"machine-0", true⟩, ⟨"machine-1", false⟩] = Except.ok "0" := by
  obtain ⟨s, h1, h2⟩ :=
    (getMachineID_correct [⟨"machine-0", true⟩, ⟨"machine-1", false⟩]).2.1 (by decide)
  have h3 : machineIDsLoop [⟨"machine-0", true⟩, ⟨"machine-1", false⟩] = ["0"] := by decide
  rw [h1] at h3
  injection h3 with h3
  rw [← h3]
  exact h2

/- `makeRaftServers` (C2, C3). -/

theorem voteLessThanOne_iff (v : Option Int) :
    voteLessThanOne v = true ↔ ∃ x, v = some x ∧ x < 1 := by
  cases v <;> simp [voteLessThanOne]

theorem makeServersList_ok (apiPort : Int) (members : List Member)
    (h : ∀ m ∈ members, (lookupTag m.Tags jujuMachineKey).isSome ∧
      (splitHostPort m.Address).isSome) :
    ∃ servers, makeServersList apiPort members = Except.ok servers ∧
      servers.length = members.length ∧
      ∀ i, i < members.length →
        ∃ m id host port,
          members[i]? = some m ∧
          lookupTag m.Tags jujuMachineKey = some id ∧
          splitHostPort m.Address = some (host, port) ∧
          servers[i]? = some
            ⟨id, joinHostPort host (toString apiPort),
             if voteLessThanOne m.Votes then Suffrage.Nonvoter else Suffrage.Voter⟩ := by
  induction members with
  | nil => exact ⟨[], rfl, rfl, fun i hi => absurd hi (by simp)⟩
  | cons m rest ih =>
    obtain ⟨h1, h2⟩ := h m (List.mem_cons_self m rest)
    obtain ⟨id, hid⟩ := Option.isSome_iff_exists.mp h1
    obtain ⟨hp, hhp⟩ := Option.isSome_iff_exists.mp h2
    obtain ⟨host, port⟩ := hp
    obtain ⟨servers, hs, hlen, hidx⟩ := ih (fun m' hm' => h m' (List.mem_cons_of_mem m hm'))
    refine ⟨⟨id, joinHostPort host (toString apiPort),
      if voteLessThanOne m.Votes then Suffrage.Nonvoter else Suffrage.Voter⟩ :: servers,
      ?_, ?_, ?_⟩
    · simp only [makeServersList]
      rw [hid, hhp, hs]
    · simp [hlen]
    · intro i hi
      cases i with
      | zero => exact ⟨m, id, host, port, by simp, hid, hhp, by simp⟩
      | succ j =>
        have hj : j < rest.length := by simpa using hi
        obtain ⟨m', id', host', port', hm', hid', hsp', hsrv'⟩ := hidx j hj
        exact ⟨m', id', host', port', by simpa using hm', hid', hsp', by simpa using hsrv'⟩

/-- Claim C2: when every member carries the `juju-machine-id` tag and a
splittable `host:port` address, `makeRaftServers` succeeds with one server
per member, in order, whose identity is the member's tag value, whose
address is the member's host re-joined with the configured API port, and
which is non-voting exactly when the member's vote weight is present and
strictly less than 1. -/
theorem makeRaftServers_correct (members : List Member) (apiPort : Int)
    (h : ∀ m ∈ members, (lookupTag m.Tags jujuMachineKey).isSome ∧
      (splitHostPort m.Address).isSome) :
    ∃ servers : List RaftServer,
      makeRaftServers members apiPort = (⟨servers⟩, none) ∧
      servers.length = members.length ∧
      ∀ i, i < members.length →
        ∃ m id host port srv,
          members[i]? = some m ∧
          lookupTag m.Tags jujuMachineKey = some id ∧
          splitHostPort m.Address = some (host, port) ∧
          servers[i]? = some srv ∧
          srv.ID = id ∧
          srv.Address = joinHostPort host (toString apiPort) ∧
          (srv.Suffrage = Suffrage.Nonvoter ↔ ∃ v, m.Votes = some v ∧ v < 1) ∧
          (¬(∃ v, m.Votes = some v ∧ v < 1) → srv.Suffrage = Suffrage.Voter) := by
  obtain ⟨servers, hs, hlen, hidx⟩ := makeServersList_ok apiPort members h
  refine ⟨servers, ?_, hlen, ?_⟩
  · unfold makeRaftServers
    rw [hs]
  · intro i hi
    obtain ⟨m, id, host, port, hm, hid, hsp, hsrv⟩ := hidx i hi
    refine ⟨m, id, host, port, _, hm, hid, hsp, hsrv, rfl, rfl, ?_, ?_⟩
    · by_cases hv : voteLessThanOne m.Votes = true
      · simp only [if_pos hv]
        simp [voteLessThanOne_iff m.Votes |>.mp hv]
      · simp only [if_neg hv]
        constructor
        · intro hc
          cases hc
        · intro hc
          exact absurd ((voteLessThanOne_iff m.Votes).mpr hc) hv
    · intro hnv
      have hv : voteLessThanOne m.Votes ≠ true :=
        fun hv => hnv ((voteLessThanOne_iff m.Votes).mp hv)
      simp only [if_neg hv]

theorem makeRaftServers_correct_witness :
    ∃ servers : List RaftServer,
      makeRaftServers
        [⟨1, "10.0.0.1:37017", none, [("juju-machine-id", "0")]⟩,
         ⟨2, "[fd42::1]:37017", some 0, [("juju-machine-id", "1")]⟩] 17070 =
        (⟨servers⟩, none) ∧
      servers.length = 2 ∧
      ∀ i, i < 2 →
        ∃ m id host port srv,
          [(⟨1, "10.0.0.1:37017", none, [("juju-machine-id", "0")]⟩ : Member),
           ⟨2, "[fd42::1]:37017", some 0, [("juju-machine-id", "1")]⟩][i]? = some m ∧
          lookupTag m.Tags jujuMachineKey = some id ∧
          splitHostPort m.Address = some (host, port) ∧
          servers[i]? = some srv ∧
          srv.ID = id ∧
          srv.Address = joinHostPort host (toString 17070) ∧
          (srv.Suffrage = Suffrage.Nonvoter ↔ ∃ v, m.Votes = some v ∧ v < 1) ∧
          (¬(∃ v, m.Votes = some v ∧ v < 1) → srv.Suffrage = Suffrage.Voter) :=
  makeRaftServers_correct
    [⟨1, "10.0.0.1:37017", none, [("juju-machine-id", "0")]⟩,
     ⟨2, "[fd42::1]:37017", some 0, [("juju-machine-id", "1")]⟩] 17070
    (by decide)

theorem makeServersList_err (apiPort : Int) (members : List Member)
    (h : ∃ m ∈ members,
      lookupTag m.Tags jujuMachineKey = none ∨ splitHostPort m.Address = none) :
    ∃ e, makeServersList apiPort members = Except.error e ∧
      ∃ m ∈ members, SrvErr.memberId e = m.Id ∧
        (lookupTag m.Tags jujuMachineKey = none ∨ splitHostPort m.Address = none) := by
  induction members with
  | nil =>
    obtain ⟨m, hm, _⟩ := h
    exact absurd hm (by simp)
  | cons m rest ih =>
    rcases hid : lookupTag m.Tags jujuMachineKey with _ | id
    · refine ⟨SrvErr.noMachineTag m.Id, ?_, m, List.mem_cons_self m rest, rfl, Or.inl hid⟩
      simp only [makeServersList]
      rw [hid]
    · rcases hsp : splitHostPort m.Address with _ | hp
      · refine ⟨SrvErr.addrErr m.Id, ?_, m, List.mem_cons_self m rest, rfl, Or.inr hsp⟩
        simp only [makeServersList]
        rw [hid, hsp]
      · have hrest : ∃ m' ∈ rest,
            lookupTag m'.Tags jujuMachineKey = none ∨ splitHostPort m'.Address = none := by
          obtain ⟨m', hm', hfail⟩ := h
          rcases List.mem_cons.mp hm' with rfl | hm'
          · rcases hfail with hf | hf
            · rw [hid] at hf
              cases hf
            · rw [hsp] at hf
              cases hf
          · exact ⟨m', hm', hfail⟩
        obtain ⟨e, he, m', hm', hid', hfail'⟩ := ih hrest
        refine ⟨e, ?_, m', List.mem_cons_of_mem m hm', hid', hfail'⟩
        simp only [makeServersList]
        rw [hid, hsp]
        obtain ⟨host, port⟩ := hp
        rw [he]

/-- Claim C3: when any member lacks the `juju-machine-id` tag or has an
address that cannot be split into host and port, `makeRaftServers`
returns the empty configuration (never a partial server list) together
with an error carrying the ordinal id of a member that failed in exactly
that way. -/
theorem makeRaftServers_failfast (members : List Member) (apiPort : Int)
    (h : ∃ m ∈ members,
      lookupTag m.Tags jujuMachineKey = none ∨ splitHostPort m.Address = none) :
    (makeRaftServers members apiPort).1 = ⟨[]⟩ ∧
    ∃ e, (makeRaftServers members apiPort).2 = some e ∧
      ∃ m ∈ members, SrvErr.memberId e = m.Id ∧
        (lookupTag m.Tags jujuMachineKey = none ∨ splitHostPort m.Address = none) := by
  obtain ⟨e, he, m, hm, hid, hfail⟩ := makeServersList_err apiPort members h
  unfold makeRaftServers
  rw [he]
  exact ⟨rfl, e, rfl, m, hm, hid, hfail⟩

theorem makeRaftServers_failfast_witness :
    (makeRaftServers
        [⟨1, "10.0.0.1:37017", none, [("juju-machine-id", "0")]⟩,
         ⟨7, "10.0.0.2:37017", none, []⟩] 17070).1 = ⟨[]⟩ ∧
    ∃ e, (makeRaftServers
        [⟨1, "10.0.0.1:37017", none, [("juju-machine-id", "0")]⟩,
         ⟨7, "10.0.0.2:37017", none, []⟩] 17070).2 = some e ∧
      ∃ m ∈ [(⟨1, "10.0.0.1:37017", none, [("juju-machine-id", "0")]⟩ : Member),
             ⟨7, "10.0.0.2:37017", none, []⟩],
        SrvErr.memberId e = m.Id ∧
        (lookupTag m.Tags jujuMachineKey = none ∨ splitHostPort m.Address = none) :=
  makeRaftServers_failfast
    [⟨1, "10.0.0.1:37017", none, [("juju-machine-id", "0")]⟩,
     ⟨7, "10.0.0.2:37017", none, []⟩] 17070
    ⟨⟨7, "10.0.0.2:37017", none, []⟩, by decide, Or.inl rfl⟩

/- `Run` (C1, C7, C8, C10). -/

theorem atoi_isSome_ne_empty (s : String) (h : (atoi s).isSome = true) : s ≠ "" := by
  intro he
  subst he
  exact absurd h (by decide)

theorem getMachineID_ok_ne_empty (entries : List DirEntry) (id : String)
    (h : getMachineID entries = Except.ok id) : id ≠ "" := by
  simp only [getMachineID] at h
  split at h
  · cases h
  · rename_i hl
    have hl1 : (machineIDsLoop entries).length = 1 := not_not.mp hl
    obtain ⟨s, hs⟩ := List.length_eq_one.mp hl1
    injection h with h
    rw [hs] at h
    simp at h
    obtain ⟨e, he, h1, h2, h3⟩ := (mem_machineIDsLoop entries s).mp
      (by rw [hs]; exact List.mem_cons_self s [])
    rw [← h]
    exact atoi_isSome_ne_empty s h3

theorem extractStatePassword_ok_ne_empty (config : List (String × YamlValue)) (p : String)
    (h : extractStatePassword config = Except.ok p) : p ≠ "" := by
  unfold extractStatePassword at h
  split at h
  · rename_i s
    split at h
    · cases h
    · rename_i hs
      injection h with h
      subst h
      exact hs
  · cases h

theorem resolveMachineID_ok_ne (c : RebootstrapConfig) (w : World) (mid : String)
    (h : (resolveMachineID c w).1 = Except.ok mid) : mid ≠ "" := by
  by_cases hm : c.machineID = ""
  · rcases hrd : w.readDir (getJujuPath c "agents" true) with e | entries
    · simp [resolveMachineID, hm, hrd] at h
    · simp [resolveMachineID, hm, hrd] at h
      rcases hgm : getMachineID entries with e | id
      · rw [hgm] at h
        simp at h
      · rw [hgm] at h
        simp at h
        rw [← h]
        exact getMachineID_ok_ne_empty entries id hgm
  · simp [resolveMachineID, hm] at h
    rw [← h]
    exact hm

theorem resolvePassword_ok_ne (c : RebootstrapConfig) (w : World) (machineID pw : String)
    (h : (resolvePassword c w machineID).1 = Except.ok pw) : pw ≠ "" := by
  by_cases hp : c.password = ""
  · rcases hoc : w.openConf
        (getJujuPath c (filepathJoin2 "agents" ("machine-" ++ machineID ++ "/agent.conf")) true)
        with e | doc
    · simp [resolvePassword, hp, hoc] at h
    · simp [resolvePassword, hp, hoc] at h
      rcases hex : extractStatePassword doc with e | p
      · rw [hex] at h
        simp at h
      · rw [hex] at h
        simp at h
        rw [← h]
        exact extractStatePassword_ok_ne_empty doc p hex
  · simp [resolvePassword, hp] at h
    rw [← h]
    exact hp

theorem resolveMachineID_events (c : RebootstrapConfig) (w : World) (e : Event)
    (h : e ∈ (resolveMachineID c w).2) : ∃ p, e = Event.readAgentsDir p := by
  by_cases hm : c.machineID = ""
  · simp [resolveMachineID, hm] at h
    exact ⟨getJujuPath c "agents" true, h⟩
  · simp [resolveMachineID, hm] at h

theorem resolvePassword_events (c : RebootstrapConfig) (w : World) (machineID : String)
    (e : Event) (h : e ∈ (resolvePassword c w machineID).2) :
    ∃ p, e = Event.openAgentConf p := by
  by_cases hp : c.password = ""
  · simp [resolvePassword, hp] at h
    exact ⟨_, h⟩
  · simp [resolvePassword, hp] at h

theorem bootstrapRaftRun_events (c : RebootstrapConfig) (w : World) (machineID : String)
    (servers : RaftConfiguration) (e : Event)
    (h : e ∈ (bootstrapRaftRun c w machineID servers).2) : e.isStoreOp = true := by
  unfold bootstrapRaftRun at h
  rcases hls : w.logStoreInit (getJujuPath c "raft" true) with el | u
  · simp [hls] at h
    subst h
    rfl
  · simp [hls] at h
    rcases hss : w.snapStoreInit (getJujuPath c "raft" true) with el | u2
    · rw [hss] at h
      simp at h
      rcases h with h | h <;> (subst h; rfl)
    · rw [hss] at h
      simp at h
      rcases hmk : makeRaftConfigOk machineID with el | u3
      · rw [hmk] at h
        simp at h
        rcases h with h | h <;> (subst h; rfl)
      · rw [hmk] at h
        simp at h
        rcases hbc : w.bootstrapCluster servers with el | u4
        · rw [hbc] at h
          simp at h
          rcases h with h | h | h <;> (subst h; rfl)
        · rw [hbc] at h
          simp at h
          rcases h with h | h | h <;> (subst h; rfl)

theorem resolveMachineID_error_ne_nil (c : RebootstrapConfig) (w : World) (e1 : String)
    (h : (resolveMachineID c w).1 = Except.error e1) : (resolveMachineID c w).2 ≠ [] := by
  by_cases hm : c.machineID = ""
  · simp [resolveMachineID, hm]
  · simp [resolveMachineID, hm] at h

theorem resolvePassword_error_ne_nil (c : RebootstrapConfig) (w : World)
    (machineID e2 : String) (h : (resolvePassword c w machineID).1 = Except.error e2) :
    (resolvePassword c w machineID).2 ≠ [] := by
  by_cases hp : c.password = ""
  · simp [resolvePassword, hp]
  · simp [resolvePassword, hp] at h

theorem runCore_dial (c : RebootstrapConfig) (w : World) (mid pw : String)
    (h : Event.dialMongo mid pw ∈ (runCore c w).2) :
    (resolveMachineID c w).1 = Except.ok mid ∧
    (resolvePassword c w mid).1 = Except.ok pw := by
  by_cases habort : w.statError (getJujuPath c "raft" true) = none ∧ c.dryRun = false
  · simp [runCore, habort] at h
  · simp only [runCore, if_neg habort] at h
    rcases hrm : resolveMachineID c w with ⟨r1, evs1⟩
    simp only [hrm] at h
    cases r1 with
    | error e1 =>
      simp at h
      obtain ⟨p, hp⟩ := resolveMachineID_events c w _ (by rw [hrm]; exact h)
      cases hp
    | ok mid1 =>
      rcases hrp : resolvePassword c w mid1 with ⟨r2, evs2⟩
      simp only [hrp] at h
      cases r2 with
      | error e2 =>
        simp at h
        rcases h with h | h
        · obtain ⟨p, hp⟩ := resolveMachineID_events c w _ (by rw [hrm]; exact h)
          cases hp
        · obtain ⟨p, hp⟩ := resolvePassword_events c w mid1 _ (by rw [hrp]; exact h)
          cases hp
      | ok pw1 =>
        have hmem : Event.dialMongo mid pw ∈
            Event.statRaftDir (getJujuPath c "raft" true) ::
              (evs1 ++ evs2 ++ [Event.dialMongo mid1 pw1]) := by
          rcases hcm : w.currentMembers mid1 pw1 with e3 | members
          · simp only [hcm] at h
            exact h
          · simp only [hcm] at h
            rcases hmk : makeRaftServers members c.apiPort with ⟨cfg1, oerr⟩
            cases oerr with
            | none =>
              simp only [hmk] at h
              exact h
            | some e4 =>
              simp only [hmk] at h
              exact h
        simp at hmem
        rcases hmem with h' | h' | h'
        · obtain ⟨p, hp⟩ := resolveMachineID_events c w _ (by rw [hrm]; exact h')
          cases hp
        · obtain ⟨p, hp⟩ := resolvePassword_events c w mid1 _ (by rw [hrp]; exact h')
          cases hp
        · obtain ⟨hmid, hpw⟩ := h'
          subst hmid
          subst hpw
          simp [hrm, hrp]

theorem runCore_no_store (c : RebootstrapConfig) (w : World) (e : Event)
    (h : e ∈ (runCore c w).2) : e.isStoreOp = false := by
  by_cases habort : w.statError (getJujuPath c "raft" true) = none ∧ c.dryRun = false
  · simp [runCore, habort] at h
    subst h
    rfl
  · simp only [runCore, if_neg habort] at h
    rcases hrm : resolveMachineID c w with ⟨r1, evs1⟩
    simp only [hrm] at h
    have hev1 : ∀ e' ∈ evs1, Event.isStoreOp e' = false := by
      intro e' he'
      obtain ⟨p, hp⟩ := resolveMachineID_events c w e' (by rw [hrm]; exact he')
      subst hp
      rfl
    cases r1 with
    | error e1 =>
      simp at h
      rcases h with h | h
      · subst h
        rfl
      · exact hev1 e h
    | ok mid1 =>
      rcases hrp : resolvePassword c w mid1 with ⟨r2, evs2⟩
      simp only [hrp] at h
      have hev2 : ∀ e' ∈ evs2, Event.isStoreOp e' = false := by
        intro e' he'
        obtain ⟨p, hp⟩ := resolvePassword_events c w mid1 e' (by rw [hrp]; exact he')
        subst hp
        rfl
      cases r2 with
      | error e2 =>
        simp at h
        rcases h with h | h | h
        · subst h
          rfl
        · exact hev1 e h
        · exact hev2 e h
      | ok pw1 =>
        have hmem : e ∈
            Event.statRaftDir (getJujuPath c "raft" true) ::
              (evs1 ++ evs2 ++ [Event.dialMongo mid1 pw1]) := by
          rcases hcm : w.currentMembers mid1 pw1 with e3 | members
          · simp only [hcm] at h
            exact h
          · simp only [hcm] at h
            rcases hmk : makeRaftServers members c.apiPort with ⟨cfg1, oerr⟩
            cases oerr with
            | none =>
              simp only [hmk] at h
              exact h
            | some e4 =>
              simp only [hmk] at h
              exact h
        simp at hmem
        rcases hmem with h' | h' | h' | h'
        · subst h'
          rfl
        · exact hev1 e h'
        · exact hev2 e h'
        · subst h'
          rfl

theorem runCore_head (c : RebootstrapConfig) (w : World) :
    ∃ rest, (runCore c w).2 = Event.statRaftDir (getJujuPath c "raft" true) :: rest := by
  by_cases habort : w.statError (getJujuPath c "raft" true) = none ∧ c.dryRun = false
  · exact ⟨[], by simp [runCore, habort]⟩
  · rcases hrm : resolveMachineID c w with ⟨r1, evs1⟩
    cases r1 with
    | error e1 =>
      exact ⟨evs1, by simp only [runCore]; rw [if_neg habort]; simp [hrm]⟩
    | ok mid1 =>
      rcases hrp : resolvePassword c w mid1 with ⟨r2, evs2⟩
      cases r2 with
      | error e2 =>
        exact ⟨evs1 ++ evs2, by simp only [runCore]; rw [if_neg habort]; simp [hrm, hrp]⟩
      | ok pw1 =>
        rcases hcm : w.currentMembers mid1 pw1 with e3 | members
        · exact ⟨evs1 ++ evs2 ++ [Event.dialMongo mid1 pw1],
            by simp only [runCore]; rw [if_neg habort]; simp [hrm, hrp, hcm]⟩
        · rcases hmk : makeRaftServers members c.apiPort with ⟨cfg1, oerr⟩
          cases oerr with
          | none =>
            exact ⟨evs1 ++ evs2 ++ [Event.dialMongo mid1 pw1],
              by simp only [runCore]; rw [if_neg habort]; simp [hrm, hrp, hcm, hmk]⟩
          | some e4 =>
            exact ⟨evs1 ++ evs2 ++ [Event.dialMongo mid1 pw1],
              by simp only [runCore]; rw [if_neg habort]; simp [hrm, hrp, hcm, hmk]⟩

theorem runCore_singleton_iff (c : RebootstrapConfig) (w : World) :
    (runCore c w).2 = [Event.statRaftDir (getJujuPath c "raft" true)] ↔
      (w.statError (getJujuPath c "raft" true) = none ∧ c.dryRun = false) := by
  constructor
  · intro h
    by_contra habort
    rcases hrm : resolveMachineID c w with ⟨r1, evs1⟩
    cases r1 with
    | error e1 =>
      rw [show (runCore c w).2 = Event.statRaftDir (getJujuPath c "raft" true) :: evs1 from
        by simp only [runCore]; rw [if_neg habort]; simp [hrm]] at h
      simp at h
      exact resolveMachineID_error_ne_nil c w e1 (by rw [hrm]) (by rw [hrm]; exact h)
    | ok mid1 =>
      rcases hrp : resolvePassword c w mid1 with ⟨r2, evs2⟩
      cases r2 with
      | error e2 =>
        rw [show (runCore c w).2 =
            Event.statRaftDir (getJujuPath c "raft" true) :: (evs1 ++ evs2) from
          by simp only [runCore]; rw [if_neg habort]; simp [hrm, hrp]] at h
        simp at h
        exact resolvePassword_error_ne_nil c w mid1 e2 (by rw [hrp]) (by rw [hrp]; exact h.2)
      | ok pw1 =>
        have h2 : (runCore c w).2 =
            Event.statRaftDir (getJujuPath c "raft" true) ::
              (evs1 ++ evs2 ++ [Event.dialMongo mid1 pw1]) := by
          rcases hcm : w.currentMembers mid1 pw1 with e3 | members
          · simp only [runCore]
            rw [if_neg habort]
            simp [hrm, hrp, hcm]
          · rcases hmk : makeRaftServers members c.apiPort with ⟨cfg1, oerr⟩
            cases oerr with
            | none =>
              simp only [runCore]
              rw [if_neg habort]
              simp [hrm, hrp, hcm, hmk]
            | some e4 =>
              simp only [runCore]
              rw [if_neg habort]
              simp [hrm, hrp, hcm, hmk]
        rw [h2] at h
        simp at h
  · intro habort
    simp [runCore, habort]

theorem run_events_decomp (c : RebootstrapConfig) (w : World) :
    ∃ tail, (run c w).2 = (runCore c w).2 ++ tail ∧ ∀ e ∈ tail, e.isStoreOp = true := by
  rcases hcore : runCore c w with ⟨r, evs⟩
  cases r with
  | error e0 =>
    refine ⟨[], ?_, by simp⟩
    simp [run, hcore]
  | ok triple =>
    obtain ⟨mid, pw, servers⟩ := triple
    by_cases hd : c.dryRun = true
    · refine ⟨[], ?_, by simp⟩
      simp [run, hcore, hd]
    · rcases hboot : bootstrapRaftRun c w mid servers with ⟨r2, evs2⟩
      refine ⟨evs2, ?_, ?_⟩
      · simp [run, hcore, hd, hboot]
      · intro e he
        exact bootstrapRaftRun_events c w mid servers e (by rw [hboot]; exact he)

/-- Claim C7: every database dial performed by `Run` uses a non-empty
machine id and a non-empty password: explicitly supplied values are
non-empty by the discovery branch conditions, and discovered values are
non-empty because `getMachineID` returns a parsed suffix and
`extractStatePassword` rejects empty passwords; every discovery failure
aborts the run before the dial. -/
theorem run_dial_credentials (c : RebootstrapConfig) (w : World) (mid pw : String)
    (h : Event.dialMongo mid pw ∈ (run c w).2) : mid ≠ "" ∧ pw ≠ "" := by
  obtain ⟨tail, hdec, hstore⟩ := run_events_decomp c w
  rw [hdec] at h
  rcases List.mem_append.mp h with h | h
  · obtain ⟨h1, h2⟩ := runCore_dial c w mid pw h
    exact ⟨resolveMachineID_ok_ne c w mid h1, resolvePassword_ok_ne c w mid pw h2⟩
  · exact Bool.noConfusion (hstore _ h)

theorem run_dial_credentials_witness :
    ("5" : String) ≠ "" ∧ ("pw" : String) ≠ "" :=
  run_dial_credentials
    ⟨17070, false, true, "localhost", "/var/lib/juju", "5", "37017", "pw", true, false⟩
    ⟨fun _ => some "no such file or directory", fun _ => Except.error "unused",
     fun _ => Except.error "unused", fun _ _ => Except.ok [],
     fun _ => Except.ok (), fun _ => Except.ok (), fun _ => Except.ok ()⟩
    "5" "pw" (by decide)

/-- Claim C8: with dry-run set, a run whose preflight, discovery,
membership fetch and server-list construction all succeed returns success
with exactly the trace of those steps, and that trace contains no
log-store creation, snapshot-store creation or cluster-bootstrap
operation — no on-disk consensus state is created or modified. -/
theorem run_dryRun_short_circuit (c : RebootstrapConfig) (w : World)
    (hdry : c.dryRun = true) (mid pw : String) (cfg : RaftConfiguration)
    (evs : List Event)
    (hok : runCore c w = (Except.ok (mid, pw, cfg), evs)) :
    run c w = (Except.ok (), evs) ∧ ∀ e ∈ evs, e.isStoreOp = false := by
  constructor
  · simp [run, hok, hdry]
  · intro e he
    exact runCore_no_store c w e (by rw [hok]; exact he)

theorem run_dryRun_short_circuit_witness :
    run ⟨17070, false, true, "localhost", "/var/lib/juju", "0", "37017", "p", true, false⟩
        ⟨fun _ => some "no such file or directory", fun _ => Except.error "unused",
         fun _ => Except.error "unused",
         fun _ _ => Except.ok [⟨1, "10.0.0.1:37017", none, [("juju-machine-id", "0")]⟩],
         fun _ => Except.ok (), fun _ => Except.ok (), fun _ => Except.ok ()⟩ =
      (Except.ok (), [Event.statRaftDir "/var/lib/juju/raft", Event.dialMongo "0" "p"]) :=
  (run_dryRun_short_circuit
    ⟨17070, false, true, "localhost", "/var/lib/juju", "0", "37017", "p", true, false⟩
    ⟨fun _ => some "no such file or directory", fun _ => Except.error "unused",
     fun _ => Except.error "unused",
     fun _ _ => Except.ok [⟨1, "10.0.0.1:37017", none, [("juju-machine-id", "0")]⟩],
     fun _ => Except.ok (), fun _ => Except.ok (), fun _ => Except.ok ()⟩
    rfl "0" "p" ⟨[⟨"0", "10.0.0.1:17070", Suffrage.Voter⟩]⟩
    [Event.statRaftDir "/var/lib/juju/raft", Event.dialMongo "0" "p"] rfl).1

/-- Claim C1: when `os.Stat` on the (snap-remapped) raft directory
succeeds and dry-run is off, `Run` returns the "already exists - remove
it first" error and its trace is the stat alone — no identity resolution,
credential resolution, database dial or store write is attempted; when
dry-run is on, the run proceeds exactly as if the directory were absent. -/
theorem run_preflight_abort (c : RebootstrapConfig) (w : World)
    (hstat : w.statError (getJujuPath c "raft" true) = none) :
    (c.dryRun = false →
      run c w = (Except.error ("raft directory " ++ goQuote (getJujuPath c "raft" false) ++
          " already exists - remove it first to show your commitment"),
        [Event.statRaftDir (getJujuPath c "raft" true)])) ∧
    (c.dryRun = true →
      run c w = run c { w with statError := fun _ => some "no such file or directory" }) := by
  constructor
  · intro hd
    have hcore : runCore c w = (Except.error ("raft directory " ++
        goQuote (getJujuPath c "raft" false) ++
        " already exists - remove it first to show your commitment"),
        [Event.statRaftDir (getJujuPath c "raft" true)]) := by
      simp [runCore, hstat, hd]
    simp [run, hcore]
  · intro hd
    have h1 : runCore c w =
        runCore c { w with statError := fun _ => some "no such file or directory" } := by
      simp only [runCore, hstat, hd]
      rfl
    unfold run
    rw [h1]
    rfl

theorem run_preflight_abort_witness :
    run ⟨17070, false, false, "localhost", "/var/lib/juju", "0", "37017", "p", true, false⟩
        ⟨fun _ => none, fun _ => Except.error "unused", fun _ => Except.error "unused",
         fun _ _ => Except.ok [], fun _ => Except.ok (), fun _ => Except.ok (),
         fun _ => Except.ok ()⟩ =
      (Except.error
        "raft directory \"/var/lib/juju/raft\" already exists - remove it first to show your commitment",
       [Event.statRaftDir "/var/lib/juju/raft"]) :=
  (run_preflight_abort
    ⟨17070, false, false, "localhost", "/var/lib/juju", "0", "37017", "p", true, false⟩
    ⟨fun _ => none, fun _ => Except.error "unused", fun _ => Except.error "unused",
     fun _ _ => Except.ok [], fun _ => Except.ok (), fun _ => Except.ok (),
     fun _ => Except.ok ()⟩ rfl).1 rfl

/-- Claim C10: the preflight abort — recognizable as a trace consisting of
the stat alone — happens exactly when `os.Stat` on the raft directory
succeeds and dry-run is off; every stat failure, whatever its error (a
permission error as much as "does not exist"), makes the run proceed
exactly as if the directory were absent. -/
theorem run_stat_failure_ignored (c : RebootstrapConfig) (w : World) :
    ((run c w).2 = [Event.statRaftDir (getJujuPath c "raft" true)] ↔
      (w.statError (getJujuPath c "raft" true) = none ∧ c.dryRun = false)) ∧
    (∀ msg, w.statError (getJujuPath c "raft" true) = some msg →
      run c w = run c { w with statError := fun _ => some "no such file or directory" }) := by
  constructor
  · constructor
    · intro h
      obtain ⟨tail, hdec, _⟩ := run_events_decomp c w
      obtain ⟨rest, hrest⟩ := runCore_head c w
      rw [hdec, hrest] at h
      simp at h
      apply (runCore_singleton_iff c w).mp
      rw [hrest, h.1]
    · intro habort
      have hcore : runCore c w = (Except.error ("raft directory " ++
          goQuote (getJujuPath c "raft" false) ++
          " already exists - remove it first to show your commitment"),
          [Event.statRaftDir (getJujuPath c "raft" true)]) := by
        simp [runCore, habort]
      simp [run, hcore]
  · intro msg hmsg
    have h1 : runCore c w =
        runCore c { w with statError := fun _ => some "no such file or directory" } := by
      simp only [runCore, hmsg]
      rfl
    unfold run
    rw [h1]
    rfl

theorem run_stat_failure_ignored_witness :
    run ⟨17070, false, false, "localhost", "/var/lib/juju", "0", "37017", "p", true, false⟩
        ⟨fun _ => some "permission denied", fun _ => Except.error "unused",
         fun _ => Except.error "unused", fun _ _ => Except.ok [],
         fun _ => Except.ok (), fun _ => Except.ok (), fun _ => Except.ok ()⟩ =
      run ⟨17070, false, false, "localhost", "/var/lib/juju", "0", "37017", "p", true, false⟩
        { (⟨fun _ => some "permission denied", fun _ => Except.error "unused",
            fun _ => Except.error "unused", fun _ _ => Except.ok [],
            fun _ => Except.ok (), fun _ => Except.ok (), fun _ => Except.ok ()⟩ : World)
          with statError := fun _ => some "no such file or directory" } :=
  (run_stat_failure_ignored
    ⟨17070, false, false, "localhost", "/var/lib/juju", "0", "37017", "p", true, false⟩
    ⟨fun _ => some "permission denied", fun _ => Except.error "unused",
     fun _ => Except.error "unused", fun _ _ => Except.ok [],
     fun _ => Except.ok (), fun _ => Except.ok (), fun _ => Except.ok ()⟩).2
    "permission denied" rfl
